import Mathlib

/-!
Verification of the LEDs_analyser plotting engine (`cagi/mpl_canvas.py`)
against its natural-language specification.

The Python code is shallowly embedded: raw CSV cells are modelled as exact
rationals (the code stores strings and converts them with `float()` at each
use), stateful methods of `MplCanvas` become pure functions on an explicit
`MState` record, and the file system is an explicit map from paths to
optional file contents.  The square root used inside the two-index
Euclidean-distance axis reading is kept abstract (a `ℚ → ℚ` parameter):
no claim depends on its value, only on the shape of the data flow.
-/

namespace LedsAnalyser

/-- `OUTLIERS_RATIO = 15` in `mpl_canvas.py`. -/
def outlierRatio : ℕ := 15

/-- Python's `list.remove(a)`: delete the first occurrence of `a`
(no-op on the model side when `a` is absent; CPython raises there, but every
call site below passes a member of the list). -/
def removeFirst (a : ℚ) : List ℚ → List ℚ
  | [] => []
  | b :: l => if b = a then l else b :: removeFirst a l

/-- Python's `max(list)` (defaulting to `0` on `[]`, where CPython raises;
all call sites pass non-empty lists). -/
def listMaxD (l : List ℚ) : ℚ := l.foldl max (l.headD 0)

/-- Python's `min(list)` (same convention as `listMaxD`). -/
def listMinD (l : List ℚ) : ℚ := l.foldl min (l.headD 0)

/-- One iteration of the loop body of `MplCanvas.remove_outliers`:
`data_array.remove(max(data_array)); data_array.remove(min(data_array))`.
The min is taken on the list that remains after the max was removed,
exactly as in the source. -/
def outlierStep (l : List ℚ) : List ℚ :=
  let l1 := removeFirst (listMaxD l) l
  removeFirst (listMinD l1) l1

/-- `MplCanvas.remove_outliers`: the loop bound
`range(len(data_array) / OUTLIERS_RATIO)` is computed once, from the
original length (Python 2 integer division). -/
def remove_outliers (l : List ℚ) : List ℚ :=
  outlierStep^[l.length / outlierRatio] l

lemma foldl_max_mem (l : List ℚ) (x : ℚ) : l.foldl max x ∈ x :: l := by
  induction l generalizing x with
  | nil => simp
  | cons b t ih =>
      have h := ih (max x b)
      simp only [List.foldl_cons]
      rcases List.mem_cons.mp h with h1 | h1
      · rcases max_choice x b with hm | hm <;> rw [h1, hm] <;> simp
      · exact List.mem_cons_of_mem _ (List.mem_cons_of_mem _ h1)

lemma foldl_min_mem (l : List ℚ) (x : ℚ) : l.foldl min x ∈ x :: l := by
  induction l generalizing x with
  | nil => simp
  | cons b t ih =>
      have h := ih (min x b)
      simp only [List.foldl_cons]
      rcases List.mem_cons.mp h with h1 | h1
      · rcases min_choice x b with hm | hm <;> rw [h1, hm] <;> simp
      · exact List.mem_cons_of_mem _ (List.mem_cons_of_mem _ h1)

lemma listMaxD_mem (l : List ℚ) (h : l ≠ []) : listMaxD l ∈ l := by
  rcases l with _ | ⟨a, t⟩
  · exact absurd rfl h
  · have := foldl_max_mem (a :: t) ((a :: t).headD 0)
    simpa [listMaxD] using this

lemma listMinD_mem (l : List ℚ) (h : l ≠ []) : listMinD l ∈ l := by
  rcases l with _ | ⟨a, t⟩
  · exact absurd rfl h
  · have := foldl_min_mem (a :: t) ((a :: t).headD 0)
    simpa [listMinD] using this

lemma removeFirst_length (a : ℚ) (l : List ℚ) (h : a ∈ l) :
    (removeFirst a l).length = l.length - 1 := by
  induction l with
  | nil => cases h
  | cons b t ih =>
      by_cases hb : b = a
      · simp [removeFirst, hb]
      · have ht : a ∈ t := by
          rcases List.mem_cons.mp h with h1 | h1
          · exact absurd h1.symm hb
          · exact h1
        have hlen : 1 ≤ t.length := List.length_pos.mpr (List.ne_nil_of_mem ht)
        simp only [removeFirst, if_neg hb, List.length_cons, ih ht]
        omega

lemma outlierStep_length (l : List ℚ) (h : 2 ≤ l.length) :
    (outlierStep l).length = l.length - 2 := by
  have hne : l ≠ [] := by
    intro he; rw [he] at h; simp at h
  have h1 : (removeFirst (listMaxD l) l).length = l.length - 1 :=
    removeFirst_length _ _ (listMaxD_mem l hne)
  have hne1 : removeFirst (listMaxD l) l ≠ [] := by
    intro he
    have := congrArg List.length he
    rw [h1] at this
    simp at this
    omega
  have h2 : (removeFirst (listMinD (removeFirst (listMaxD l) l))
      (removeFirst (listMaxD l) l)).length = (removeFirst (listMaxD l) l).length - 1 :=
    removeFirst_length _ _ (listMinD_mem _ hne1)
  simp only [outlierStep, h2, h1]
  omega

lemma outlierStep_iterate_length (l : List ℚ) :
    ∀ k : ℕ, outlierRatio * k ≤ l.length →
      (outlierStep^[k] l).length = l.length - 2 * k := by
  intro k
  induction k with
  | zero => intro _; simp
  | succ m ih =>
      intro hk
      have hm : outlierRatio * m ≤ l.length := by
        simp only [outlierRatio] at hk ⊢
        omega
      have hlen : (outlierStep^[m] l).length = l.length - 2 * m := ih hm
      have h2 : 2 ≤ (outlierStep^[m] l).length := by
        rw [hlen]; simp only [outlierRatio] at hk; omega
      rw [Function.iterate_succ_apply', outlierStep_length _ h2, hlen]
      omega

/-- The trimmed window has length `m - 2 * (m / 15)`. -/
lemma remove_outliers_length (l : List ℚ) :
    (remove_outliers l).length = l.length - 2 * (l.length / outlierRatio) := by
  have h : outlierRatio * (l.length / outlierRatio) ≤ l.length :=
    Nat.mul_div_le l.length outlierRatio
  exact outlierStep_iterate_length l _ h

/-- **C8.** `remove_outliers` repeats `floor(m/15)` times the removal of the
current maximum and the current minimum, so it removes exactly
`2 * floor(m/15)` elements, returning a window of length
`m - 2 * floor(m/15)`; for `m < 15` it is a no-op returning the window
unchanged. -/
theorem c8_remove_outliers_trims_fixed_count (l : List ℚ) :
    (remove_outliers l).length = l.length - 2 * (l.length / 15) ∧
      (l.length < 15 → remove_outliers l = l) := by
  constructor
  · exact remove_outliers_length l
  · intro h
    have hz : l.length / outlierRatio = 0 := Nat.div_eq_of_lt h
    simp [remove_outliers, hz]

/-- Witness for C8 at the concrete window `[5, 1, 3]` (length 3 < 15),
discharging the inner hypothesis. -/
theorem c8_witness :
    ([(5 : ℚ), 1, 3].length < 15) ∧ remove_outliers [(5 : ℚ), 1, 3] = [5, 1, 3] :=
  ⟨by decide, (c8_remove_outliers_trims_fixed_count [(5 : ℚ), 1, 3]).2 (by decide)⟩

/-- **C10.** For every non-empty window, trimming can never empty it:
`m - 2 * floor(m/15) ≥ 1`, so the mean taken after trimming is always over a
non-empty list and the degenerate empty-window case is unreachable. -/
theorem c10_remove_outliers_never_empties (l : List ℚ) (h : 1 ≤ l.length) :
    1 ≤ (remove_outliers l).length := by
  rw [remove_outliers_length]
  simp only [outlierRatio]
  omega

/-- Witness for C10 at a concrete window of length 15 (so that the trim
really fires). -/
theorem c10_witness :
    1 ≤ List.length [(1 : ℚ), 2, 3, 4, 5, 6, 7, 8, 9, 10, 11, 12, 13, 14, 15] ∧
      1 ≤ (remove_outliers
        [(1 : ℚ), 2, 3, 4, 5, 6, 7, 8, 9, 10, 11, 12, 13, 14, 15]).length :=
  ⟨by decide,
    c10_remove_outliers_never_empties
      [(1 : ℚ), 2, 3, 4, 5, 6, 7, 8, 9, 10, 11, 12, 13, 14, 15] (by decide)⟩

/-!
## Canvas state

The mutable fields of `MplCanvas` that the analysed methods read or write.
Purely graphical objects (figure, axes, toolbar, the selection-rectangle
patch) are omitted: the code only pushes data into them and never reads
analysis state back.  CSV cells are modelled as exact rationals (the code
stores strings and converts with `float()` at each use); the header row is
modelled the same way (the code only formats it into axis labels).
`fit_std_dev_sq` holds the square of `self._fit_std_dev` (the code stores
`sqrt` of it, which is irrational in general; no analysed property reads
the value). -/
structure MState where
  data : List (List ℚ)
  headers : List ℚ
  data_x : List ℚ
  data_y : List ℚ
  data_colors : List ℚ
  ind_x : List ℕ
  ind_y : List ℕ
  fit_par : List ℚ
  predicted_y : List ℚ
  fit_std_dev_sq : ℚ
  prev_path : String
  click_init_X : ℚ
  click_init_Y : ℚ
  ctrl_ret : Bool
  ctrl_diff : Bool
  ctrl_curve : Bool
  ctrl_stddev : Bool
  is_removing_data : Bool
  deriving DecidableEq

/-- File-system model: `none` means the file cannot be opened (`IOError`);
`some rows` is the full row list of the CSV file, header row first. -/
def FileSys : Type := String → Option (List (List ℚ))

/-- `MplCanvas.fetch_data`.  Returns the new state and `true` on normal
return, or the state as mutated so far and `false` when a Python exception
escapes (`IOError` from `open(path)`, or `StopIteration` from
`data_rows.next()` on an empty file).  Note that `self._data = []` executes
*before* `open(path)`, so a failed open still clears the cached dataset,
while `self._prev_path` and `self._headers` keep their old values. -/
def fetch_data (fs : FileSys) (s : MState) (path : String) : MState × Bool :=
  if path = s.prev_path then (s, true)
  else
    match fs path with
    | none => ({ s with data := [] }, false)
    | some [] => ({ s with data := [] }, false)
    | some (hdr :: rows) =>
        ({ s with data := rows, headers := hdr, prev_path := path }, true)

/-- `MplCanvas.plot` — redraws the plain scatter; its effect on the
analysed state is resetting the four view-control flags
(`mpl_canvas.py` lines 174–177). -/
def plot (s : MState) : MState :=
  { s with ctrl_curve := false, ctrl_diff := false,
           ctrl_stddev := false, ctrl_ret := false }

/-- `MplCanvas.cursor_press`, with the event already mapped to data
coordinates by `get_point_data`. -/
def cursor_press (s : MState) (px py : ℚ) : MState :=
  if s.is_removing_data then
    { s with click_init_X := px, click_init_Y := py, ctrl_ret := true }
  else s

/-- The boolean keep-mask built in `MplCanvas.cursor_release`:
`(not a) | (not b)` where `a` tests membership of `x` in the inclusive
x-range of the rectangle, `b` the analogous test for `y`, paired by
`zip(·, ·)`. -/
def keepMask (x1 y1 x2 y2 : ℚ) (xs ys : List ℚ) : List Bool :=
  List.zipWith
    (fun x y =>
      !(decide (min x1 x2 ≤ x ∧ x ≤ max x1 x2) &&
        decide (min y1 y2 ≤ y ∧ y ≤ max y1 y2)))
    xs ys

/-- The mask `cursor_release` computes from the stored anchor and the
release point. -/
def releaseMask (s : MState) (ex ey : ℚ) : List Bool :=
  keepMask s.click_init_X s.click_init_Y ex ey s.data_x s.data_y

/-- NumPy boolean-mask indexing `arr[mask]` for a mask of the array's
length. -/
def applyMask (mask : List Bool) (l : List ℚ) : List ℚ :=
  ((mask.zip l).filter (fun p => p.1)).map (fun p => p.2)

/-- `MplCanvas.cursor_release` (event point in data coordinates): filters
`data_x`, `data_y` and `data_colors` by the keep-mask, drops the selection
rectangle and replots. -/
def cursor_release (s : MState) (ex ey : ℚ) : MState :=
  if s.ctrl_ret then
    plot { s with
      data_x := applyMask (releaseMask s ex ey) s.data_x,
      data_y := applyMask (releaseMask s ex ey) s.data_y,
      data_colors := applyMask (releaseMask s ex ey) s.data_colors,
      ctrl_ret := false }
  else s

lemma applyMask_cons (b : Bool) (mt : List Bool) (a : ℚ) (lt : List ℚ) :
    applyMask (b :: mt) (a :: lt) =
      if b then a :: applyMask mt lt else applyMask mt lt := by
  cases b <;> simp [applyMask, List.zip_cons_cons, List.filter_cons]

lemma applyMask_sublist (mask : List Bool) (l : List ℚ) :
    (applyMask mask l).Sublist l := by
  induction mask generalizing l with
  | nil => simp [applyMask]
  | cons b mt ih =>
      cases l with
      | nil => simp [applyMask]
      | cons a lt =>
          rw [applyMask_cons]
          by_cases hb : b = true
          · rw [if_pos hb]
            exact (ih lt).cons₂ a
          · rw [if_neg hb]
            exact (ih lt).cons a

lemma keepMask_getD (x1 y1 x2 y2 : ℚ) (xs ys : List ℚ) (i : ℕ)
    (hx : i < xs.length) (hy : i < ys.length) :
    (keepMask x1 y1 x2 y2 xs ys).getD i false =
      !(decide (min x1 x2 ≤ xs.getD i 0 ∧ xs.getD i 0 ≤ max x1 x2) &&
        decide (min y1 y2 ≤ ys.getD i 0 ∧ ys.getD i 0 ≤ max y1 y2)) := by
  have hm : i < (keepMask x1 y1 x2 y2 xs ys).length := by
    simp only [keepMask, List.length_zipWith, lt_min_iff]
    exact ⟨hx, hy⟩
  rw [List.getD_eq_getElem _ _ hm, List.getD_eq_getElem _ _ hx,
    List.getD_eq_getElem _ _ hy]
  simp [keepMask]

/-- **C2.** For every reduced series and every finalized selection
rectangle (anchor `(click_init_X, click_init_Y)`, release point
`(ex, ey)`), `cursor_release` keeps a point iff its `x` lies outside the
inclusive x-interval of the rectangle or its `y` lies outside the inclusive
y-interval (removal requires being inside on both axes), and the identical
keep-mask filters `data_x`, `data_y` and the ordinal weight array
`data_colors`, preserving relative order (the survivors form sublists). -/
theorem c2_cursor_release_keep_mask (s : MState) (ex ey : ℚ)
    (hret : s.ctrl_ret = true)
    (hxy : s.data_x.length = s.data_y.length)
    (_hc : s.data_colors.length = s.data_y.length) :
    (cursor_release s ex ey).data_x = applyMask (releaseMask s ex ey) s.data_x ∧
    (cursor_release s ex ey).data_y = applyMask (releaseMask s ex ey) s.data_y ∧
    (cursor_release s ex ey).data_colors =
      applyMask (releaseMask s ex ey) s.data_colors ∧
    (∀ i, i < s.data_x.length →
      ((releaseMask s ex ey).getD i false = true ↔
        (s.data_x.getD i 0 < min s.click_init_X ex ∨
          max s.click_init_X ex < s.data_x.getD i 0) ∨
        (s.data_y.getD i 0 < min s.click_init_Y ey ∨
          max s.click_init_Y ey < s.data_y.getD i 0))) ∧
    (cursor_release s ex ey).data_x.Sublist s.data_x ∧
    (cursor_release s ex ey).data_y.Sublist s.data_y ∧
    (cursor_release s ex ey).data_colors.Sublist s.data_colors := by
  have hdx : (cursor_release s ex ey).data_x =
      applyMask (releaseMask s ex ey) s.data_x := by
    simp [cursor_release, hret, plot]
  have hdy : (cursor_release s ex ey).data_y =
      applyMask (releaseMask s ex ey) s.data_y := by
    simp [cursor_release, hret, plot]
  have hdc : (cursor_release s ex ey).data_colors =
      applyMask (releaseMask s ex ey) s.data_colors := by
    simp [cursor_release, hret, plot]
  refine ⟨hdx, hdy, hdc, ?_, ?_, ?_, ?_⟩
  · intro i hi
    have hiy : i < s.data_y.length := hxy ▸ hi
    rw [releaseMask, keepMask_getD _ _ _ _ _ _ i hi hiy]
    simp only [Bool.not_and, Bool.or_eq_true, Bool.not_eq_true',
      decide_eq_false_iff_not, not_and_or, not_le]
  · rw [hdx]; exact applyMask_sublist _ _
  · rw [hdy]; exact applyMask_sublist _ _
  · rw [hdc]; exact applyMask_sublist _ _

/-- A base canvas state used to instantiate theorems at concrete inputs. -/
def s0 : MState :=
  { data := [], headers := [], data_x := [], data_y := [], data_colors := [],
    ind_x := [0], ind_y := [0], fit_par := [], predicted_y := [],
    fit_std_dev_sq := 0, prev_path := "", click_init_X := 0, click_init_Y := 0,
    ctrl_ret := false, ctrl_diff := false, ctrl_curve := false,
    ctrl_stddev := false, is_removing_data := false }

/-- The spec's five-point scenario: a rectangle exactly covering the second
and third points. -/
def c2state : MState :=
  { s0 with data_x := [0, 1, 2, 3, 4], data_y := [0, 10, 20, 30, 40],
            data_colors := [4, 3, 2, 1, 0],
            click_init_X := 1, click_init_Y := 10, ctrl_ret := true }

/-- Witness for C2: the rectangle `(1, 10)–(2, 20)` over the five points of
`c2state` covers exactly the second and third point; `cursor_release`
removes those two and keeps the other three in order, with their weights. -/
theorem c2_witness :
    c2state.ctrl_ret = true ∧
    (cursor_release c2state 2 20).data_x = [0, 3, 4] ∧
    (cursor_release c2state 2 20).data_y = [0, 30, 40] ∧
    (cursor_release c2state 2 20).data_colors = [4, 1, 0] := by
  have h := c2_cursor_release_keep_mask c2state 2 20 (by decide)
    (by decide) (by decide)
  refine ⟨by decide, ?_, ?_, ?_⟩
  · rw [h.1]; decide
  · rw [h.2.1]; decide
  · rw [h.2.2.1]; decide

/-!
## DataStore claims (C5, C7)

`fetch_data` contains no validation and no error handling: `self._data = []`
runs before `open(path)`, and rows are appended verbatim whatever their
field count.
-/

/-- A state holding a previously loaded dataset and reduced series. -/
def c5state : MState :=
  { s0 with data := [[1, 2, 3, 4, 5, 6, 7, 8, 9, 10]], data_x := [1],
            data_y := [2], data_colors := [1], prev_path := "old.csv" }

/-- **C5 counterexample.** Loading a different, unopenable path does not
leave the prior state untouched: the cached raw dataset is cleared before
the `open` call fails. -/
theorem c5_counterexample :
    (fetch_data (fun _ => none) c5state "new.csv").1 ≠ c5state ∧
    (fetch_data (fun _ => none) c5state "new.csv").1.data = [] ∧
    c5state.data ≠ [] := by
  refine ⟨?_, rfl, by decide⟩
  intro h
  have hd := congrArg MState.data h
  simp only [fetch_data] at hd
  revert hd
  decide

/-- **C5 (amended).** A failed load (fresh path, unopenable file) leaves
the reduced series, fit, view flags, headers and cached path untouched,
but resets the raw dataset to empty: `self._data = []` executes before
`open(path)`, so the failure is not atomic for the dataset. -/
theorem c5_amended_failed_load (fs : FileSys) (s : MState) (path : String)
    (hpath : path ≠ s.prev_path) (hfail : fs path = none) :
    fetch_data fs s path = ({ s with data := [] }, false) := by
  unfold fetch_data
  rw [if_neg hpath, hfail]

/-- Witness for the amended C5 at a concrete prior state and path. -/
theorem c5_witness :
    ("new.csv" ≠ c5state.prev_path) ∧
    fetch_data (fun _ => none) c5state "new.csv" =
      ({ c5state with data := [] }, false) :=
  ⟨by decide,
    c5_amended_failed_load (fun _ => none) c5state "new.csv" (by decide) rfl⟩

/-- A file system with one readable file whose single data row has only
3 fields (fewer than the 10 the format prescribes). -/
def c7fs : FileSys := fun p => if p = "short.csv" then some [[1, 2], [1, 2, 3]] else none

/-- **C7 counterexample.** `fetch_data` performs no per-row field-count
validation: a file whose data row has 3 < 10 fields loads successfully
(normal return, row stored verbatim) instead of failing with FormatError. -/
theorem c7_counterexample :
    ([(1 : ℚ), 2, 3].length < 10) ∧
    fetch_data c7fs s0 "short.csv" =
      ({ s0 with data := [[1, 2, 3]], headers := [1, 2],
                 prev_path := "short.csv" }, true) :=
  ⟨by decide, by decide⟩

/-- **C7 (amended).** `fetch_data` does not validate row widths: any
openable, non-empty file loads successfully with its data rows stored
verbatim whatever their field counts; and for a path equal to the
last-seen one it returns the cached dataset unconditionally — a no-op for
every file system, even one where the underlying file changed. -/
theorem c7_amended_no_validation_and_caching (fs : FileSys) (s : MState)
    (path : String) (hdr : List ℚ) (rows : List (List ℚ)) :
    (path = s.prev_path → fetch_data fs s path = (s, true)) ∧
    (path ≠ s.prev_path → fs path = some (hdr :: rows) →
      fetch_data fs s path =
        ({ s with data := rows, headers := hdr, prev_path := path }, true)) := by
  constructor
  · intro h
    unfold fetch_data
    rw [if_pos h]
  · intro h hf
    unfold fetch_data
    rw [if_neg h, hf]

/-- Witness for the amended C7: the cached path short-circuits (even though
`c7fs` still serves the file), and a fresh load accepts the 3-field row. -/
theorem c7_witness :
    fetch_data c7fs { s0 with prev_path := "short.csv" } "short.csv" =
      ({ s0 with prev_path := "short.csv" }, true) ∧
    fetch_data c7fs { s0 with prev_path := "other.csv" } "short.csv" =
      ({ s0 with data := [[1, 2, 3]], headers := [1, 2],
                 prev_path := "short.csv" }, true) := by
  constructor
  · exact (c7_amended_no_validation_and_caching c7fs
      { s0 with prev_path := "short.csv" } "short.csv" [] []).1 rfl
  · exact (c7_amended_no_validation_and_caching c7fs
      { s0 with prev_path := "other.csv" } "short.csv" [1, 2] [[1, 2, 3]]).2
      (by decide) rfl

/-!
## Series reduction (`plot_data`, C1 and C9)
-/

/-- The per-row scalar read for one axis selection (`mpl_canvas.py`
lines 104–115): one index reads the field directly; two indices take the
Euclidean distance between the 2-D points `(row[i], row[i+1])` and
`(row[j], row[j+1])`.  `sqrtA` abstracts `math.sqrt`, which has no exact
rational embedding; no analysed property depends on its values.  Python's
`and`/`or` chain returns `False` (numerically `0`) for any other selection
length, and also maps a direct reading of `0.0` to `False` (again
numerically `0`), so `0` is the faithful value in both corners. -/
def rowScalar (sqrtA : ℚ → ℚ) (ind : List ℕ) (row : List ℚ) : ℚ :=
  match ind with
  | [i] => row.getD i 0
  | [i, j] => sqrtA ((row.getD i 0 - row.getD j 0) ^ 2 +
      (row.getD (i + 1) 0 - row.getD (j + 1) 0) ^ 2)
  | _ => 0

/-- `np.mean` of a list (`0` on the empty list, where NumPy warns and
yields NaN; the empty case is unreachable from `plot_data` for `n ≥ 1`,
see C10). -/
def mean (l : List ℚ) : ℚ := l.sum / l.length

/-- `np.linspace(1, 0, k)`: `k` evenly spaced values from `1` down to `0`.
For `k = 1` NumPy returns just the start value, `[1.0]`. -/
def linspace10 : ℕ → List ℚ
  | 0 => []
  | 1 => [1]
  | k + 2 => (List.range (k + 2)).map (fun i : ℕ => 1 - (i : ℚ) / ((k : ℚ) + 1))

/-- The row loop of `MplCanvas.plot_data` (lines 102–125), carrying
`(data_y, data_x, temp_y, temp_x)` exactly as the Python loop does: append
the y-scalar of each row to `temp_y`, and the x-scalar to `temp_x` when
`ind_x[0] <= 9` (otherwise the x-axis is the synthetic "position" and is
not read from the file); when `temp_y` reaches length `n`, append the mean
of the outlier-trimmed y-window to `data_y`, append to `data_x` either
`step * len(data_x)` (if `temp_x` is empty) or the mean of the trimmed
x-window, and reset both windows. -/
def plotLoop (yS xS : List ℚ → ℚ) (xFromFile : Bool) (step : ℚ) (n : ℕ) :
    List (List ℚ) → List ℚ → List ℚ → List ℚ → List ℚ → List ℚ × List ℚ
  | [], dy, dx, _, _ => (dy, dx)
  | row :: rest, dy, dx, ty, tx =>
      let ty' := ty ++ [yS row]
      let tx' := if xFromFile then tx ++ [xS row] else tx
      if ty'.length = n then
        plotLoop yS xS xFromFile step n rest
          (dy ++ [mean (remove_outliers ty')])
          (dx ++ [if tx' = [] then step * dx.length else mean (remove_outliers tx')])
          [] []
      else plotLoop yS xS xFromFile step n rest dy dx ty' tx'

/-- The whole reduction of a row list by `plot_data`'s loop, started from
empty accumulators.  The x-axis is read from the file exactly when
`ind_x[0] <= 9`. -/
def reduceSeries (sqrtA : ℚ → ℚ) (ind_y ind_x : List ℕ) (step : ℚ) (n : ℕ)
    (rows : List (List ℚ)) : List ℚ × List ℚ :=
  plotLoop (rowScalar sqrtA ind_y) (rowScalar sqrtA ind_x)
    (decide (ind_x.headD 0 ≤ 9)) step n rows [] [] [] []

/-- `MplCanvas.plot_data` (lines 82–134): fetch the CSV (aborting with the
state as mutated by `fetch_data` if that raises), reduce the rows into
`data_y`/`data_x`, attach the `np.linspace(1, 0, len(data_y))` weight
array, record the axis selections, leave removal mode, and replot (which
resets the view flags). -/
def plot_data (sqrtA : ℚ → ℚ) (fs : FileSys) (s : MState)
    (ind_y ind_x : List ℕ) (step : ℚ) (n : ℕ) (path : String) :
    MState × Bool :=
  match fetch_data fs s path with
  | (s1, false) => (s1, false)
  | (s1, true) =>
      let p := reduceSeries sqrtA ind_y ind_x step n s1.data
      (plot { s1 with
        data_y := p.1, data_x := p.2,
        data_colors := linspace10 p.1.length,
        ind_x := ind_x, ind_y := ind_y,
        is_removing_data := false }, true)

lemma plotLoop_length (yS xS : List ℚ → ℚ) (xf : Bool) (step : ℚ) (n : ℕ)
    (hn : 1 ≤ n) :
    ∀ rows dy dx ty tx, ty.length < n →
      (plotLoop yS xS xf step n rows dy dx ty tx).1.length
          = dy.length + (ty.length + rows.length) / n ∧
      (plotLoop yS xS xf step n rows dy dx ty tx).2.length
          = dx.length + (ty.length + rows.length) / n := by
  intro rows
  induction rows with
  | nil =>
      intro dy dx ty tx hty
      simp [plotLoop, Nat.div_eq_of_lt hty]
  | cons row rest ih =>
      intro dy dx ty tx hty
      simp only [plotLoop]
      by_cases h : (ty ++ [yS row]).length = n
      · rw [if_pos h]
        obtain ⟨h1, h2⟩ := ih (dy ++ [mean (remove_outliers (ty ++ [yS row]))])
          (dx ++ [if (if xf then tx ++ [xS row] else tx) = []
            then step * dx.length
            else mean (remove_outliers (if xf then tx ++ [xS row] else tx))])
          [] [] hn
        simp only [List.length_nil, Nat.zero_add, List.length_append,
          List.length_singleton] at h1 h2
        rw [h1, h2]
        have hnum : ty.length + (rest.length + 1) = rest.length + n := by
          simp only [List.length_append, List.length_singleton] at h
          omega
        have hdiv : (ty.length + (rest.length + 1)) / n = rest.length / n + 1 := by
          rw [hnum, Nat.add_div_right _ (by omega)]
        simp only [List.length_append, List.length_singleton, List.length_cons,
          List.length_nil, List.length_cons, hdiv]
        omega
      · rw [if_neg h]
        have hty' : (ty ++ [yS row]).length < n := by
          simp only [List.length_append, List.length_singleton] at h ⊢
          omega
        obtain ⟨h1, h2⟩ := ih dy dx (ty ++ [yS row])
          (if xf then tx ++ [xS row] else tx) hty'
        rw [h1, h2]
        have hnum : (ty ++ [yS row]).length + rest.length
            = ty.length + (rest.length + 1) := by
          simp only [List.length_append, List.length_singleton]
          omega
        rw [hnum]
        simp [List.length_cons]

/-- In synthetic-position mode (`xFromFile = false`, `temp_x` empty), the
x-series appended by the loop is `step * k` for successive ordinals `k`,
never a value read from a row. -/
lemma plotLoop_synth (yS xS : List ℚ → ℚ) (step : ℚ) (n : ℕ) (hn : 1 ≤ n) :
    ∀ rows dy dx ty, ty.length < n →
      (plotLoop yS xS false step n rows dy dx ty []).2
        = dx ++ (List.range ((ty.length + rows.length) / n)).map
            (fun k => step * ((dx.length + k : ℕ) : ℚ)) := by
  intro rows
  induction rows with
  | nil =>
      intro dy dx ty hty
      simp [plotLoop, Nat.div_eq_of_lt hty]
  | cons row rest ih =>
      intro dy dx ty hty
      simp only [plotLoop, if_neg (Bool.false_ne_true), List.length_cons]
      by_cases h : (ty ++ [yS row]).length = n
      · rw [if_pos h]
        simp only [if_true]
        have hrec := ih (dy ++ [mean (remove_outliers (ty ++ [yS row]))])
          (dx ++ [step * dx.length]) [] hn
        simp only [List.length_nil, Nat.zero_add, List.length_append,
          List.length_singleton] at hrec
        rw [hrec]
        have hnum : ty.length + (rest.length + 1) = rest.length + n := by
          simp only [List.length_append, List.length_singleton] at h
          omega
        rw [hnum, Nat.add_div_right _ (by omega), List.range_succ_eq_map]
        simp only [List.map_cons, List.map_map, List.append_assoc,
          List.cons_append, List.nil_append]
        congr 1
        congr 1
        apply List.map_congr_left
        intro a _
        simp only [Function.comp_apply]
        push_cast
        ring
      · rw [if_neg h]
        have hty' : (ty ++ [yS row]).length < n := by
          simp only [List.length_append, List.length_singleton] at h ⊢
          omega
        rw [ih dy dx (ty ++ [yS row]) hty']
        have hnum : (ty ++ [yS row]).length + rest.length
            = ty.length + (rest.length + 1) := by
          simp only [List.length_append, List.length_singleton]
          omega
        rw [hnum]

lemma reduceSeries_fst_length (sqrtA : ℚ → ℚ) (ind_y ind_x : List ℕ)
    (step : ℚ) (n : ℕ) (rows : List (List ℚ)) (hn : 1 ≤ n) :
    (reduceSeries sqrtA ind_y ind_x step n rows).1.length = rows.length / n := by
  have h := (plotLoop_length (rowScalar sqrtA ind_y) (rowScalar sqrtA ind_x)
    (decide (ind_x.headD 0 ≤ 9)) step n hn rows [] [] [] [] (by simpa using hn)).1
  simpa [reduceSeries] using h

lemma reduceSeries_snd_length (sqrtA : ℚ → ℚ) (ind_y ind_x : List ℕ)
    (step : ℚ) (n : ℕ) (rows : List (List ℚ)) (hn : 1 ≤ n) :
    (reduceSeries sqrtA ind_y ind_x step n rows).2.length = rows.length / n := by
  have h := (plotLoop_length (rowScalar sqrtA ind_y) (rowScalar sqrtA ind_x)
    (decide (ind_x.headD 0 ≤ 9)) step n hn rows [] [] [] [] (by simpa using hn)).2
  simpa [reduceSeries] using h

/-- With the synthetic x-selection `[10]`, the reduced x-series is
`step * k` for `k = 0, 1, …` — it depends only on the row count, never on
the rows' contents. -/
lemma reduceSeries_synth (sqrtA : ℚ → ℚ) (ind_y : List ℕ) (step : ℚ) (n : ℕ)
    (rows : List (List ℚ)) (hn : 1 ≤ n) :
    (reduceSeries sqrtA ind_y [10] step n rows).2
      = (List.range (rows.length / n)).map (fun k : ℕ => step * (k : ℚ)) := by
  have h := plotLoop_synth (rowScalar sqrtA ind_y) (rowScalar sqrtA [10])
    step n hn rows [] [] [] (by simpa using hn)
  have hb : decide (List.headD ([10] : List ℕ) 0 ≤ 9) = false := rfl
  simp only [reduceSeries, hb]
  simp only [List.length_nil, Nat.zero_add, List.nil_append] at h
  rw [h]

lemma linspace10_length (k : ℕ) : (linspace10 k).length = k := by
  match k with
  | 0 => rfl
  | 1 => rfl
  | m + 2 => simp [linspace10]

lemma linspace10_getD (k i : ℕ) (h2 : 2 ≤ k) (hi : i < k) :
    (linspace10 k).getD i 0 = 1 - (i : ℚ) / ((k : ℚ) - 1) := by
  obtain ⟨m, rfl⟩ : ∃ m, k = m + 2 := ⟨k - 2, by omega⟩
  have hlen : i < (linspace10 (m + 2)).length := by
    rw [linspace10_length]; exact hi
  rw [List.getD_eq_getElem _ _ hlen]
  simp only [linspace10, List.getElem_map, List.getElem_range]
  push_cast
  ring

lemma linspace10_first (k : ℕ) (h2 : 2 ≤ k) : (linspace10 k).getD 0 0 = 1 := by
  rw [linspace10_getD k 0 h2 (by omega)]
  simp

lemma linspace10_last (k : ℕ) (h2 : 2 ≤ k) :
    (linspace10 k).getD (k - 1) 0 = 0 := by
  rw [linspace10_getD k (k - 1) h2 (by omega)]
  have hk : ((k - 1 : ℕ) : ℚ) = (k : ℚ) - 1 := by
    push_cast [Nat.cast_sub (by omega : 1 ≤ k)]
    ring
  have hne : (k : ℚ) - 1 ≠ 0 := by
    have h2q : (2 : ℚ) ≤ (k : ℚ) := by exact_mod_cast h2
    intro hc
    linarith
  rw [hk, div_self hne]
  ring

lemma plot_data_ylen (sqrtA : ℚ → ℚ) (fs : FileSys) (s s1 : MState)
    (ind_y ind_x : List ℕ) (step : ℚ) (n : ℕ) (path : String)
    (hn : 1 ≤ n) (hfetch : fetch_data fs s path = (s1, true)) :
    (plot_data sqrtA fs s ind_y ind_x step n path).1.data_y.length
      = s1.data.length / n := by
  unfold plot_data
  rw [hfetch]
  exact reduceSeries_fst_length sqrtA ind_y ind_x step n s1.data hn

lemma plot_data_xlen (sqrtA : ℚ → ℚ) (fs : FileSys) (s s1 : MState)
    (ind_y ind_x : List ℕ) (step : ℚ) (n : ℕ) (path : String)
    (hn : 1 ≤ n) (hfetch : fetch_data fs s path = (s1, true)) :
    (plot_data sqrtA fs s ind_y ind_x step n path).1.data_x.length
      = s1.data.length / n := by
  unfold plot_data
  rw [hfetch]
  exact reduceSeries_snd_length sqrtA ind_y ind_x step n s1.data hn

lemma plot_data_colors (sqrtA : ℚ → ℚ) (fs : FileSys) (s s1 : MState)
    (ind_y ind_x : List ℕ) (step : ℚ) (n : ℕ) (path : String)
    (hn : 1 ≤ n) (hfetch : fetch_data fs s path = (s1, true)) :
    (plot_data sqrtA fs s ind_y ind_x step n path).1.data_colors
      = linspace10 (s1.data.length / n) := by
  unfold plot_data
  rw [hfetch]
  exact congrArg linspace10
    (reduceSeries_fst_length sqrtA ind_y ind_x step n s1.data hn)

/-- **C1 (amended).** For every dataset with `R` data rows and every bin
size `n ≥ 1`, `plot_data` produces exactly `floor(R/n)` output points in
each of `data_y` and `data_x` (trailing rows that do not complete a window
of `n` are discarded), and the ordinal weight array is
`np.linspace(1, 0, floor(R/n))`: the same length, spaced linearly with
weight `1` at the first point and `0` at the last whenever there are at
least two points; with exactly one output point the single weight is `1`
(NumPy's `linspace(1, 0, 1)` keeps only the start value, so the "0.0 for
the last point" clause fails there). -/
theorem c1_amended_reduce_counts_and_weights (sqrtA : ℚ → ℚ) (fs : FileSys)
    (s s1 : MState) (ind_y ind_x : List ℕ) (step : ℚ) (n : ℕ) (path : String)
    (hn : 1 ≤ n) (hfetch : fetch_data fs s path = (s1, true)) :
    (plot_data sqrtA fs s ind_y ind_x step n path).1.data_y.length
        = s1.data.length / n ∧
    (plot_data sqrtA fs s ind_y ind_x step n path).1.data_x.length
        = s1.data.length / n ∧
    (plot_data sqrtA fs s ind_y ind_x step n path).1.data_colors
        = linspace10 (s1.data.length / n) ∧
    (2 ≤ s1.data.length / n →
      (plot_data sqrtA fs s ind_y ind_x step n path).1.data_colors.getD 0 0
          = 1 ∧
      (plot_data sqrtA fs s ind_y ind_x step n path).1.data_colors.getD
          (s1.data.length / n - 1) 0 = 0 ∧
      ∀ i < s1.data.length / n,
        (plot_data sqrtA fs s ind_y ind_x step n path).1.data_colors.getD i 0
          = 1 - (i : ℚ) / (((s1.data.length / n : ℕ) : ℚ) - 1)) ∧
    (s1.data.length / n = 1 →
      (plot_data sqrtA fs s ind_y ind_x step n path).1.data_colors = [1]) := by
  have hy := plot_data_ylen sqrtA fs s s1 ind_y ind_x step n path hn hfetch
  have hx := plot_data_xlen sqrtA fs s s1 ind_y ind_x step n path hn hfetch
  have hc := plot_data_colors sqrtA fs s s1 ind_y ind_x step n path hn hfetch
  refine ⟨hy, hx, hc, ?_, ?_⟩
  · intro hk2
    rw [hc]
    exact ⟨linspace10_first _ hk2, linspace10_last _ hk2,
      fun i hi => linspace10_getD _ i hk2 hi⟩
  · intro hk1
    rw [hc, hk1]
    rfl

/-- File with exactly one data row, for the C1 counterexample. -/
def c1fs : FileSys :=
  fun _ => some [[0, 0, 0, 0, 0, 0, 0, 0, 0, 0], [1, 2, 3, 4, 5, 6, 7, 8, 9, 10]]

/-- **C1 counterexample.** With one data row and `n = 1`, `plot_data`
produces exactly one output point (`floor(1/1) = 1`), but its ordinal
weight array is `[1]`: `np.linspace(1, 0, 1)` keeps only the start value,
so the weight of the last (only) point is `1`, not the `0` the claim
requires. -/
theorem c1_counterexample :
    (plot_data (fun q => q) c1fs s0 [0] [10] 5 1 "f.csv").1.data_y.length
        = 1 ∧
    (plot_data (fun q => q) c1fs s0 [0] [10] 5 1 "f.csv").1.data_colors
        = [1] ∧
    (1 : ℚ) ≠ 0 :=
  ⟨rfl, rfl, by decide⟩

/-- File with two data rows, for the C1 witness. -/
def c1fs2 : FileSys :=
  fun _ => some [[0, 0, 0, 0, 0, 0, 0, 0, 0, 0],
    [1, 2, 3, 4, 5, 6, 7, 8, 9, 10], [2, 3, 4, 5, 6, 7, 8, 9, 10, 11]]

/-- The state `fetch_data` produces from `c1fs2`. -/
def c1s1 : MState :=
  { s0 with
      data := [[1, 2, 3, 4, 5, 6, 7, 8, 9, 10], [2, 3, 4, 5, 6, 7, 8, 9, 10, 11]],
      headers := [0, 0, 0, 0, 0, 0, 0, 0, 0, 0],
      prev_path := "c1.csv" }

/-- Witness for the amended C1 on a two-row file with `n = 1`: two output
points per series and weights `linspace(1, 0, 2)`. -/
theorem c1_witness :
    (1 : ℕ) ≤ 1 ∧
    (plot_data (fun q => q) c1fs2 s0 [0] [10] 5 1 "c1.csv").1.data_y.length
        = 2 ∧
    (plot_data (fun q => q) c1fs2 s0 [0] [10] 5 1 "c1.csv").1.data_x.length
        = 2 ∧
    (plot_data (fun q => q) c1fs2 s0 [0] [10] 5 1 "c1.csv").1.data_colors
        = linspace10 2 := by
  have h := c1_amended_reduce_counts_and_weights (fun q => q) c1fs2 s0 c1s1
    [0] [10] 5 1 "c1.csv" (by decide) (by decide)
  exact ⟨by decide, h.1, h.2.1, h.2.2.1⟩

/-- **C9.** Whenever the X-axis selection is the synthetic sentinel `[10]`
("position"), `plot_data` never reads X values from the file: the reduced
`data_x` is exactly `step * k` for ordinals `k = 0, 1, …`, a function of
the row count alone. -/
theorem c9_synthetic_position (sqrtA : ℚ → ℚ) (fs : FileSys) (s s1 : MState)
    (ind_y : List ℕ) (step : ℚ) (n : ℕ) (path : String)
    (hn : 1 ≤ n) (hfetch : fetch_data fs s path = (s1, true)) :
    (plot_data sqrtA fs s ind_y [10] step n path).1.data_x
      = (List.range (s1.data.length / n)).map (fun k : ℕ => step * (k : ℚ)) := by
  unfold plot_data
  rw [hfetch]
  exact reduceSeries_synth sqrtA ind_y step n s1.data hn

/-- The spec's concrete C9 scenario: a file of 30 uniform data rows. -/
def c9fs : FileSys :=
  fun _ => some ([0, 0, 0, 0, 0, 0, 0, 0, 0, 0]
    :: List.replicate 30 [1, 2, 3, 4, 5, 6, 7, 8, 9, 10])

/-- The state `fetch_data` produces from `c9fs`. -/
def c9s1 : MState :=
  { s0 with
      data := List.replicate 30 [1, 2, 3, 4, 5, 6, 7, 8, 9, 10],
      headers := [0, 0, 0, 0, 0, 0, 0, 0, 0, 0],
      prev_path := "c9.csv" }

/-- Witness for C9 at the spec's scenario: 30 rows, `n = 10`, `step = 5`,
synthetic X — three output points with `data_x = [0, 5, 10]`. -/
theorem c9_witness :
    (1 : ℕ) ≤ 10 ∧
    (plot_data (fun q => q) c9fs s0 [0] [10] 5 10 "c9.csv").1.data_x
      = (List.range 3).map (fun k : ℕ => (5 : ℚ) * (k : ℚ)) ∧
    (plot_data (fun q => q) c9fs s0 [0] [10] 5 10 "c9.csv").1.data_x
      = [0, 5, 10] := by
  have h := c9_synthetic_position (fun q => q) c9fs s0 c9s1 [0] 5 10 "c9.csv"
    (by decide) (by decide)
  refine ⟨by decide, h, ?_⟩
  rw [h]
  have h30 : c9s1.data.length / 10 = 3 := by decide
  rw [h30]
  norm_num [List.range_succ]

/-!
## Curve fitting (C3, C4, C6)
-/

/-- Power sum `Σ xᵢᵏ`. -/
def powS (x : List ℚ) (k : ℕ) : ℚ := (x.map (fun v => v ^ k)).sum

/-- Mixed sum `Σ yᵢ · xᵢᵏ`. -/
def mixS (x y : List ℚ) (k : ℕ) : ℚ :=
  (List.zipWith (fun a b => b * a ^ k) x y).sum

/-- Models `np.polyfit(x, y, n)[::-1]` for the two degrees the canvas uses
(1 and 2): the ordinary-least-squares solution of the normal equations by
Cramer's rule, coefficients in ascending order of degree.  This closed
form is the unique least-squares solution whenever the normal matrix is
nonsingular (at least `n+1` distinct x values); on singular systems NumPy
instead returns a minimum-norm `lstsq` solution with a RankWarning while
this embedding degenerates through ℚ's total `/0 = 0` — no analysed claim
depends on the numeric values of that corner. -/
def polyfitRev (x y : List ℚ) : ℕ → List ℚ
  | 1 =>
      let s0 : ℚ := x.length
      let s1 := powS x 1
      let s2 := powS x 2
      let t0 := mixS x y 0
      let t1 := mixS x y 1
      let d := s0 * s2 - s1 * s1
      [(t0 * s2 - t1 * s1) / d, (s0 * t1 - s1 * t0) / d]
  | 2 =>
      let s0 : ℚ := x.length
      let s1 := powS x 1
      let s2 := powS x 2
      let s3 := powS x 3
      let s4 := powS x 4
      let t0 := mixS x y 0
      let t1 := mixS x y 1
      let t2 := mixS x y 2
      let d := s0 * (s2 * s4 - s3 * s3) - s1 * (s1 * s4 - s3 * s2)
        + s2 * (s1 * s3 - s2 * s2)
      [(t0 * (s2 * s4 - s3 * s3) - s1 * (t1 * s4 - s3 * t2)
          + s2 * (t1 * s3 - s2 * t2)) / d,
       (s0 * (t1 * s4 - t2 * s3) - t0 * (s1 * s4 - s3 * s2)
          + s2 * (s1 * t2 - t1 * s2)) / d,
       (s0 * (s2 * t2 - s3 * t1) - s1 * (s1 * t2 - t1 * s2)
          + t0 * (s1 * s3 - s2 * s2)) / d]
  | _ => []

/-- `MplCanvas.gen_poly_curve`: `predicted_y[i] = Σⱼ fit_par[j]·data_x[i]ʲ`,
one value per element of `data_y`. -/
def gen_poly_curve_vals (fp dx : List ℚ) (m : ℕ) : List ℚ :=
  (List.range m).map
    (fun i => (fp.enum.map (fun jp => jp.2 * dx.getD i 0 ^ jp.1)).sum)

/-- `np.sum((predicted_y - data_y)**2)`. -/
def residSq (pred y : List ℚ) : ℚ :=
  (List.zipWith (fun p v => (p - v) ^ 2) pred y).sum

/-- `MplCanvas.poly_curve_reg(n)`: guards only `len(data_y) == 0` (returns
False, no state change); with a curve already active it replots the
scatter (toggle-off) and returns False without refitting; otherwise it
fits `np.polyfit(data_x, data_y, n)[::-1]` from the current series, stores
the predicted curve and residual statistic, activates the curve and
returns True.  A one-point series passes the guard and is fit (NumPy emits
RankWarning / division warnings there, but no exception — see C6); the
stored statistic is the square of `self._fit_std_dev`. -/
def poly_curve_reg (s : MState) (n : ℕ) : MState × Bool :=
  if s.data_y.length = 0 then (s, false)
  else if s.ctrl_curve then (plot s, false)
  else
    let fp := polyfitRev s.data_x s.data_y n
    let pred := gen_poly_curve_vals fp s.data_x s.data_y.length
    ({ s with
        fit_par := fp,
        predicted_y := pred,
        ctrl_curve := true,
        fit_std_dev_sq := residSq pred s.data_y / ((s.data_y.length : ℚ) - 1) },
      true)

/-- `MplCanvas.linear_regression` delegates to `poly_curve_reg(1)`; the R²
and legend it additionally produces are presentation-only and read no
further analysed state. -/
def linear_regression (s : MState) : MState × Bool := poly_curve_reg s 1

/-- `MplCanvas.parabolic_regression` delegates to `poly_curve_reg(2)`. -/
def parabolic_regression (s : MState) : MState × Bool := poly_curve_reg s 2

/-- `MplCanvas.gen_hyper_curve`: fit `1/y = A·x + B` with
`np.polyfit(data_x, 1/data_y, 1)[::-1]` (so `fit_par = [B, A]`), recover
`a = 1/A` and `b = a·B`, and predict `a / (x + b)`.  Returns
`((a, b), fit_par, predicted_y)`. -/
def gen_hyper_curve (s : MState) : (ℚ × ℚ) × List ℚ × List ℚ :=
  let fp := polyfitRev s.data_x (s.data_y.map (fun v => 1 / v)) 1
  let a := 1 / fp.getD 1 0
  let b := a * fp.getD 0 0
  ((a, b), fp, s.data_x.map (fun x => a / (x + b)))

/-- `MplCanvas.hyperbolic_regression`: guards only an empty series or a
Y-selection with fewer than two indices (`len(self._ind_y) < 2`), both
returning False with no state change; toggles off like the polynomial
fits when a curve is active; otherwise fits via `gen_hyper_curve`.  There
is NO check for zero `data_y` values or for two distinct x values (NumPy
yields inf/NaN with warnings there, never an exception).  The Python
method returns `False` from the guards and `None` on success; the Bool
below is `true` exactly on the fitting path. -/
def hyperbolic_regression (s : MState) : MState × Bool :=
  if s.data_y.length = 0 ∨ s.ind_y.length < 2 then (s, false)
  else if s.ctrl_curve then (plot s, false)
  else
    let r := gen_hyper_curve s
    ({ s with
        fit_par := r.2.1,
        predicted_y := r.2.2,
        ctrl_curve := true,
        fit_std_dev_sq := residSq r.2.2 s.data_y / ((s.data_y.length : ℚ) - 1) },
      true)

/-- **C3.** With a fit active (`ctrl_curve = true`), re-invoking a fit
method — in particular the same family — reverts the view to the plain
scatter (curve flag cleared, fit parameters and predictions untouched: no
refit happens, the series survives); and whenever a fit method does fit,
its parameters are a function of the current `data_x`/`data_y` alone:
states agreeing on the series produce identical parameters and predicted
values, whatever any previous fit left in `fit_par`/`predicted_y`. -/
theorem c3_toggle_off_and_refit_from_series (s : MState) (n : ℕ)
    (hact : s.ctrl_curve = true) (hne : s.data_y.length ≠ 0) :
    (poly_curve_reg s n = (plot s, false) ∧
      (plot s).ctrl_curve = false ∧
      (plot s).fit_par = s.fit_par ∧
      (plot s).predicted_y = s.predicted_y ∧
      (plot s).data_x = s.data_x ∧ (plot s).data_y = s.data_y) ∧
    (2 ≤ s.ind_y.length → hyperbolic_regression s = (plot s, false)) ∧
    (∀ u : MState, u.ctrl_curve = false → u.data_y.length ≠ 0 →
      (poly_curve_reg u n).1.fit_par = polyfitRev u.data_x u.data_y n) ∧
    (∀ u : MState, u.ctrl_curve = false → u.data_y.length ≠ 0 →
      2 ≤ u.ind_y.length →
      (hyperbolic_regression u).1.fit_par
        = polyfitRev u.data_x (u.data_y.map (fun v => 1 / v)) 1) ∧
    (∀ u v : MState, u.ctrl_curve = false → v.ctrl_curve = false →
      u.data_y.length ≠ 0 → v.data_y.length ≠ 0 →
      u.data_x = v.data_x → u.data_y = v.data_y →
      (poly_curve_reg u n).1.fit_par = (poly_curve_reg v n).1.fit_par ∧
      (poly_curve_reg u n).1.predicted_y
        = (poly_curve_reg v n).1.predicted_y) := by
  have hpoly : ∀ u : MState, u.ctrl_curve = false → u.data_y.length ≠ 0 →
      (poly_curve_reg u n).1.fit_par = polyfitRev u.data_x u.data_y n := by
    intro u hu hud
    unfold poly_curve_reg
    rw [if_neg hud, if_neg (by simp [hu])]
  have hpred : ∀ u : MState, u.ctrl_curve = false → u.data_y.length ≠ 0 →
      (poly_curve_reg u n).1.predicted_y
        = gen_poly_curve_vals (polyfitRev u.data_x u.data_y n) u.data_x
            u.data_y.length := by
    intro u hu hud
    unfold poly_curve_reg
    rw [if_neg hud, if_neg (by simp [hu])]
  refine ⟨⟨?_, rfl, rfl, rfl, rfl, rfl⟩, ?_, hpoly, ?_, ?_⟩
  · unfold poly_curve_reg
    rw [if_neg hne, if_pos hact]
  · intro h2
    unfold hyperbolic_regression
    rw [if_neg (by push_neg; exact ⟨hne, by omega⟩), if_pos hact]
  · intro u hu hud h2
    unfold hyperbolic_regression
    rw [if_neg (by push_neg; exact ⟨hud, by omega⟩), if_neg (by simp [hu])]
    rfl
  · intro u v hu hv hud hvd hx hy
    constructor
    · rw [hpoly u hu hud, hpoly v hv hvd, hx, hy]
    · rw [hpred u hu hud, hpred v hv hvd, hx, hy]

/-- A state with an active linear fit over a two-point series. -/
def c3state : MState :=
  { s0 with data_x := [1, 2], data_y := [3, 5], data_colors := [1, 0],
            ind_y := [0, 2], fit_par := [1, 2], predicted_y := [3, 5],
            ctrl_curve := true }

/-- Witness for C3: re-invoking a fit on `c3state` toggles back to the
scatter, and refitting afterwards reads the current series. -/
theorem c3_witness :
    c3state.ctrl_curve = true ∧
    poly_curve_reg c3state 1 = (plot c3state, false) ∧
    hyperbolic_regression c3state = (plot c3state, false) ∧
    (poly_curve_reg (plot c3state) 1).1.fit_par
      = polyfitRev c3state.data_x c3state.data_y 1 := by
  have h := c3_toggle_off_and_refit_from_series c3state 1 (by decide) (by decide)
  exact ⟨by decide, h.1.1, h.2.1 (by decide),
    h.2.2.1 (plot c3state) (by decide) (by decide)⟩

/-- A series containing a zero y value under a two-index Y-selection. -/
def c4state : MState :=
  { s0 with data_x := [1, 2], data_y := [1, 0], data_colors := [1, 0],
            ind_y := [0, 2] }

/-- **C4 counterexample.** `data_y` contains a zero — the claim's
precondition is violated — yet `hyperbolic_regression` does not fail with
InvalidModelError: it performs the fit and activates the curve, changing
the state (NumPy evaluates `1/0.0` to `inf` with a runtime warning, not an
exception). -/
theorem c4_counterexample :
    c4state.data_y = [1, 0] ∧
    c4state.ctrl_curve = false ∧
    (hyperbolic_regression c4state).2 = true ∧
    (hyperbolic_regression c4state).1.ctrl_curve = true :=
  ⟨rfl, rfl, rfl, rfl⟩

/-- **C4 (amended).** `hyperbolic_regression` fails — performing no fit,
leaving the state unchanged — exactly when the series is empty or the
Y-axis selection has fewer than two indices; it checks nothing about zero
`data_y` values or the number of distinct x values (such degenerate data
is fit anyway).  On the fitting path it linearizes via `y' = 1/y`, fits
`y' = A·x + B` by ordinary least squares, and recovers `a = 1/A`,
`b = B·a`, predicting `a / (x + b)`. -/
theorem c4_amended_hyperbolic_guards_and_formula (s : MState) :
    ((s.data_y.length = 0 ∨ s.ind_y.length < 2) →
      hyperbolic_regression s = (s, false)) ∧
    (s.data_y.length ≠ 0 → 2 ≤ s.ind_y.length → s.ctrl_curve = false →
      (hyperbolic_regression s).2 = true ∧
      (hyperbolic_regression s).1.ctrl_curve = true ∧
      (hyperbolic_regression s).1.fit_par = (gen_hyper_curve s).2.1 ∧
      (gen_hyper_curve s).2.1
        = polyfitRev s.data_x (s.data_y.map (fun v => 1 / v)) 1 ∧
      (gen_hyper_curve s).1.1 = 1 / (gen_hyper_curve s).2.1.getD 1 0 ∧
      (gen_hyper_curve s).1.2
        = (gen_hyper_curve s).1.1 * (gen_hyper_curve s).2.1.getD 0 0 ∧
      (hyperbolic_regression s).1.predicted_y
        = s.data_x.map
            (fun x => (gen_hyper_curve s).1.1 / (x + (gen_hyper_curve s).1.2))) := by
  constructor
  · intro h
    unfold hyperbolic_regression
    rw [if_pos h]
  · intro h1 h2 h3
    have hguard : ¬(s.data_y.length = 0 ∨ s.ind_y.length < 2) := by
      push_neg
      exact ⟨h1, by omega⟩
    unfold hyperbolic_regression
    rw [if_neg hguard, if_neg (by simp [h3])]
    exact ⟨rfl, rfl, rfl, rfl, rfl, rfl, rfl⟩

/-- A well-behaved series for the C4 witness: no zero y, distinct x. -/
def c4good : MState :=
  { s0 with data_x := [1, 2], data_y := [5, 2], data_colors := [1, 0],
            ind_y := [0, 2] }

/-- A state whose Y-selection is a single index, for the guard half of the
C4 witness. -/
def c4bad : MState :=
  { s0 with data_x := [1, 2], data_y := [5, 2], data_colors := [1, 0],
            ind_y := [0] }

/-- Witness for the amended C4: the single-index selection is refused with
the state unchanged, and the well-behaved series is fit with the
linearized least-squares parameters. -/
theorem c4_witness :
    hyperbolic_regression c4bad = (c4bad, false) ∧
    ((hyperbolic_regression c4good).2 = true ∧
      (hyperbolic_regression c4good).1.fit_par = (gen_hyper_curve c4good).2.1 ∧
      (gen_hyper_curve c4good).1.1
        = 1 / (gen_hyper_curve c4good).2.1.getD 1 0) := by
  have hb := (c4_amended_hyperbolic_guards_and_formula c4bad).1
    (Or.inr (by decide))
  have hg := (c4_amended_hyperbolic_guards_and_formula c4good).2
    (by decide) (by decide) (by decide)
  exact ⟨hb, hg.1, hg.2.2.1, hg.2.2.2.2.1⟩

/-- A one-point series, enough for the fit guard but short of the claimed
two-point minimum. -/
def c6state : MState :=
  { s0 with data_x := [3], data_y := [5], data_colors := [1] }

/-- **C6 counterexample.** A one-point series is NOT rejected:
`poly_curve_reg` guards only `len(data_y) == 0`, so the linear fit of a
single point proceeds — it returns True and activates the curve instead
of failing with InsufficientDataError. -/
theorem c6_counterexample :
    c6state.data_y.length = 1 ∧
    (poly_curve_reg c6state 1).2 = true ∧
    (poly_curve_reg c6state 1).1.ctrl_curve = true :=
  ⟨rfl, rfl, rfl⟩

/-- **C6 (amended).** The fit methods reject — performing no fit — exactly
the empty series (for the hyperbolic fit, also a Y-selection with fewer
than two indices); any non-empty series passes, a single point included,
so the real requirement is `len(data_y) ≥ 1`, not `≥ 2`, and no
InsufficientDataError exists. -/
theorem c6_amended_only_empty_series_guard (s : MState) (n : ℕ) :
    (s.data_y.length = 0 → poly_curve_reg s n = (s, false)) ∧
    (s.data_y.length = 0 → hyperbolic_regression s = (s, false)) ∧
    (s.data_y.length ≠ 0 → s.ctrl_curve = false →
      (poly_curve_reg s n).2 = true) ∧
    (s.data_y.length ≠ 0 → 2 ≤ s.ind_y.length → s.ctrl_curve = false →
      (hyperbolic_regression s).2 = true) := by
  refine ⟨?_, ?_, ?_, ?_⟩
  · intro h
    unfold poly_curve_reg
    rw [if_pos h]
  · intro h
    unfold hyperbolic_regression
    rw [if_pos (Or.inl h)]
  · intro h hc
    unfold poly_curve_reg
    rw [if_neg h, if_neg (by simp [hc])]
  · intro h h2 hc
    unfold hyperbolic_regression
    rw [if_neg (by push_neg; exact ⟨h, by omega⟩), if_neg (by simp [hc])]

/-- Witness for the amended C6: the empty series is refused by both fit
entry points, while the one-point series and the two-point series are
accepted. -/
theorem c6_witness :
    poly_curve_reg s0 1 = (s0, false) ∧
    hyperbolic_regression s0 = (s0, false) ∧
    (poly_curve_reg c6state 2).2 = true ∧
    (hyperbolic_regression c4good).2 = true := by
  have h0 := c6_amended_only_empty_series_guard s0 1
  have h1 := c6_amended_only_empty_series_guard c6state 2
  have h2 := c6_amended_only_empty_series_guard c4good 1
  exact ⟨h0.1 (by decide), h0.2.1 (by decide),
    h1.2.2.1 (by decide) (by decide),
    h2.2.2.2 (by decide) (by decide) (by decide)⟩

end LedsAnalyser
